import Mathlib

/-!
Shallow embedding of the buffered persistence tier of `backend-memecoin`.

The repository holds several near-duplicate server variants:
  * `server.js` (first half)  — single-blob repo-file variant: `memoryDb`,
    global `isDirty`, `saveToRepo` with a speculative dirty clear and a
    409-handler that reloads the whole database via `initStorage`;
  * `server.js` (second half) and `src/unnamed/part_002` — per-collection
    variant: `collections = {users, tokens, bots, transfers}`, each with
    `data`, `sha`, `dirty`, plus a global `isSaving` guard in `saveLoop`;
  * `src/unnamed/part_000` — gist buffer variant: whole payload stored in
    `memoryBuffer`, `needsSync` flag, no merge at all;
  * `src/unnamed/part_001` — single-blob variant with an `isSaving` guard;
  * `src/unnamed/part_003` — gist variant: `memoryDb`, `persistData` with a
    speculative dirty clear, and its own token/transfer merge.

JS values are modelled with typed carriers: scalar JS numbers as `Int`
(the claims only move them around, never compute with them), heavyweight
substructures (holder lists, chart data, trade lists) as `List Int` of
opaque entries, and JS `undefined`-able fields as `Option`.  A JS object
used as a map is an association list with unique keys, in insertion
order, so `JSON.stringify` equality is structural equality of the list.
-/

namespace Memecoin

/-! ## Transfers

`{ id, claimed }` records kept in an array; JS `Array.find` returns the
first match and mutating it updates that element in place. -/

structure Transfer where
  id : String
  claimed : Bool
deriving DecidableEq, Repr

/-- `memoryDb.transfers.find(x => x.id === i)` -/
def findTransfer (l : List Transfer) (i : String) : Option Transfer :=
  l.find? (fun t => t.id == i)

/-- `ex.claimed = c` on the first element found by `find`: replace the
`claimed` field of the first transfer whose id is `i`. -/
def setClaimed (l : List Transfer) (i : String) (c : Bool) : List Transfer :=
  match l with
  | [] => []
  | t :: rest =>
      if t.id == i then { t with claimed := c } :: rest
      else t :: setClaimed rest i c

/-- One step of the transfers merge of `server.js` lines 114-122 (same
logic in `part_003` lines 127-135): push when the id is new, otherwise
`ex.claimed = tx.claimed` unconditionally. -/
def mergeTransferServerJs (l : List Transfer) (tx : Transfer) : List Transfer :=
  if (findTransfer l tx.id).isNone then l ++ [tx]
  else setClaimed l tx.id tx.claimed

/-- `data.transfers.forEach(tx => ...)` of the single-blob `server.js` variant. -/
def mergeTransfersServerJs (l : List Transfer) (txs : List Transfer) : List Transfer :=
  txs.foldl mergeTransferServerJs l

/-- One step of the transfers merge of `part_002` lines 193-197 (also the
second half of `server.js`): push when new, else
`if (!exists.claimed && tx.claimed) exists.claimed = true`, tracking the
dirty flag of the collection alongside the list. -/
def mergeTransferCol (st : List Transfer × Bool) (tx : Transfer) :
    List Transfer × Bool :=
  match findTransfer st.1 tx.id with
  | none => (st.1 ++ [tx], true)
  | some ex =>
      if !ex.claimed && tx.claimed then (setClaimed st.1 tx.id true, true)
      else st

/-- `data.transfers.forEach(tx => ...)` of the per-collection variant,
starting from stored list `l` and dirty flag `d`. -/
def mergeTransfersCol (l : List Transfer) (d : Bool) (txs : List Transfer) :
    List Transfer × Bool :=
  txs.foldl mergeTransferCol (l, d)

/-- `claimed` of the first stored transfer with id `i`, as `find` sees it. -/
def claimedOf (l : List Transfer) (i : String) : Option Bool :=
  (findTransfer l i).map (fun t => t.claimed)

/-- Number of stored transfers carrying id `i`. -/
def countId (l : List Transfer) (i : String) : Nat :=
  (l.filter (fun t => t.id == i)).length

/-! ## Tokens

One token record; scalar fields and heavyweight substructures are all
`undefined`-able, hence `Option`.  `topTrades`/`rektTrades` appear in the
per-collection variants, `tradeLog` in the gist variants. -/

structure TokenRec where
  marketCap : Option Int := none
  price : Option Int := none
  liquidityDepth : Option Int := none
  conviction : Option Int := none
  quality : Option Int := none
  holders : Option (List Int) := none
  chartData : Option (List Int) := none
  topTrades : Option (List Int) := none
  rektTrades : Option (List Int) := none
  tradeLog : Option (List Int) := none
deriving DecidableEq, Repr

/-- Token merge onto an existing record, `part_002` lines 178-186 and the
second half of `server.js` lines 300-310: the five scalars are assigned
unconditionally; the four heavyweight substructures only behind a JS
truthiness guard (`if(inc.holders) ...`; a present array, even empty, is
truthy, `undefined` is falsy, so the guard is `isSome`). -/
def mergeTokenRecCol (ext inc : TokenRec) : TokenRec :=
  { ext with
    marketCap := inc.marketCap
    price := inc.price
    liquidityDepth := inc.liquidityDepth
    conviction := inc.conviction
    quality := inc.quality
    holders := if inc.holders.isSome then inc.holders else ext.holders
    chartData := if inc.chartData.isSome then inc.chartData else ext.chartData
    topTrades := if inc.topTrades.isSome then inc.topTrades else ext.topTrades
    rektTrades := if inc.rektTrades.isSome then inc.rektTrades else ext.rektTrades }

/-- Token merge onto an existing record, `part_003` lines 146-155:
`marketCap`, `holders`, `liquidityDepth` and `tradeLog` are assigned
unconditionally; only `chartData` sits behind a truthiness guard; the
remaining fields are untouched. -/
def mergeTokenRecGist (ext inc : TokenRec) : TokenRec :=
  { ext with
    marketCap := inc.marketCap
    holders := inc.holders
    liquidityDepth := inc.liquidityDepth
    tradeLog := inc.tradeLog
    chartData := if inc.chartData.isSome then inc.chartData else ext.chartData }

/-- `collections.tokens.data[tid]` lookup in the token map. -/
def lookupTok (store : List (String × TokenRec)) (tid : String) : Option TokenRec :=
  (store.find? (fun p => p.1 == tid)).map (fun p => p.2)

/-- `collections.tokens.data[tid] = r` on an existing key: replace the
value at the first occurrence of `tid`. -/
def updateTok (store : List (String × TokenRec)) (tid : String) (r : TokenRec) :
    List (String × TokenRec) :=
  match store with
  | [] => []
  | p :: rest =>
      if p.1 == tid then (tid, r) :: rest
      else p :: updateTok rest tid r

/-- One key of `Object.keys(data.tokens).forEach` in `part_002` lines
171-188: insert when absent, else merge in place; the tokens dirty flag
is set in both branches. -/
def applyTokenCol (st : List (String × TokenRec) × Bool) (kv : String × TokenRec) :
    List (String × TokenRec) × Bool :=
  match lookupTok st.1 kv.1 with
  | none => (st.1 ++ [kv], true)
  | some ext => (updateTok st.1 kv.1 (mergeTokenRecCol ext kv.2), true)

/-- The whole tokens branch of the `part_002` ingest, starting from the
stored map `store` and dirty flag `d`. -/
def applyTokensCol (store : List (String × TokenRec)) (d : Bool)
    (inc : List (String × TokenRec)) : List (String × TokenRec) × Bool :=
  inc.foldl applyTokenCol (store, d)

/-! ## Users

A user record is a JS object, modelled as its field list; the merge is a
JS object spread. -/

structure UserRec where
  fields : List (String × Int)
deriving DecidableEq, Repr

/-- Field lookup in the field list of a user record. -/
def lookupField (l : List (String × Int)) (k : String) : Option Int :=
  (l.find? (fun p => p.1 == k)).map (fun p => p.2)

/-- JS object spread `{ ...ext, ...inc }` for objects with unique keys:
the result keeps the keys of `ext` in order with values overridden by `inc`
where present, followed by the keys of `inc` absent from `ext`. -/
def jsSpread (ext inc : List (String × Int)) : List (String × Int) :=
  ext.map (fun p => (p.1, (lookupField inc p.1).getD p.2)) ++
    inc.filter (fun q => (lookupField ext q.1).isNone)

/-- `collections.users.data[u]` lookup. -/
def lookupUser (store : List (String × UserRec)) (u : String) : Option UserRec :=
  (store.find? (fun p => p.1 == u)).map (fun p => p.2)

/-- `collections.users.data[u] = r` on an existing key. -/
def updateUser (store : List (String × UserRec)) (u : String) (r : UserRec) :
    List (String × UserRec) :=
  match store with
  | [] => []
  | p :: rest =>
      if p.1 == u then (u, r) :: rest
      else p :: updateUser rest u r

/-- One key of `Object.keys(data.users).forEach` in `part_002` lines
161-167: `if (!ext || JSON.stringify(ext) !== JSON.stringify(inc))`
then `data[u] = { ...(ext || \x7b\x7d), ...inc }` and the users dirty flag is
set; otherwise nothing happens.  Stringify inequality is structural
inequality of the field lists. -/
def applyUserCol (st : List (String × UserRec) × Bool) (kv : String × UserRec) :
    List (String × UserRec) × Bool :=
  match lookupUser st.1 kv.1 with
  | none => (st.1 ++ [(kv.1, ⟨jsSpread [] kv.2.fields⟩)], true)
  | some ext =>
      if ext ≠ kv.2 then
        (updateUser st.1 kv.1 ⟨jsSpread ext.fields kv.2.fields⟩, true)
      else st

/-- The whole users branch of the `part_002` ingest. -/
def applyUsersCol (store : List (String × UserRec)) (d : Bool)
    (inc : List (String × UserRec)) : List (String × UserRec) × Bool :=
  inc.foldl applyUserCol (store, d)

/-! ## Bots -/

/-- The bots branch, `part_002` line 191 and `server.js` line 317:
`if (data.bots) { collections.bots.data = data.bots; collections.bots.dirty = true; }`.
An absent key is `undefined` (falsy); a present array — even `[]` — is
truthy, so presence alone triggers wholesale replacement. -/
def applyBots (stored : List Int) (d : Bool) (inc : Option (List Int)) :
    List Int × Bool :=
  match inc with
  | some bs => (bs, true)
  | none => (stored, d)

/-! ## The full `part_002` ingest -/

/-- The body of a `POST /api/stream` request: the recognized keys of
`req.body.data`; everything else in the payload is never read, so
unrecognized keys are not represented. -/
structure Update where
  users : Option (List (String × UserRec)) := none
  tokens : Option (List (String × TokenRec)) := none
  bots : Option (List Int) := none
  transfers : Option (List Transfer) := none
deriving DecidableEq, Repr

/-- The four collections of the per-collection variant, each with its
value and dirty flag (`sha` plays no role in the ingest path). -/
structure Collections where
  usersData : List (String × UserRec)
  usersDirty : Bool
  tokensData : List (String × TokenRec)
  tokensDirty : Bool
  botsData : List Int
  botsDirty : Bool
  transfersData : List Transfer
  transfersDirty : Bool
deriving DecidableEq, Repr

/-- the `POST /api/stream` handler of `part_002` lines 155-198: `if (!data)`
return unchanged; otherwise each present collection key is merged by its
branch (`if (data.users) ...` etc.; an absent key skips the branch, a
present-but-empty map runs an empty `forEach`). -/
def streamIngestCol (c : Collections) (d : Option Update) : Collections :=
  match d with
  | none => c
  | some u =>
      let us := match u.users with
        | none => (c.usersData, c.usersDirty)
        | some m => applyUsersCol c.usersData c.usersDirty m
      let ts := match u.tokens with
        | none => (c.tokensData, c.tokensDirty)
        | some m => applyTokensCol c.tokensData c.tokensDirty m
      let bs := applyBots c.botsData c.botsDirty u.bots
      let xs := match u.transfers with
        | none => (c.transfersData, c.transfersDirty)
        | some m => mergeTransfersCol c.transfersData c.transfersDirty m
      { usersData := us.1, usersDirty := us.2
        tokensData := ts.1, tokensDirty := ts.2
        botsData := bs.1, botsDirty := bs.2
        transfersData := xs.1, transfersDirty := xs.2 }

/-! ## The `part_000` buffer ingest -/

/-- The whole in-memory state of `part_000`: the raw buffered payload and
the sync flag. -/
structure BufferState where
  memoryBuffer : Option Update := none
  needsSync : Bool := false
deriving DecidableEq, Repr

/-- the `POST /api/stream` handler of `part_000` lines 31-38:
`if(data) { memoryBuffer = data; needsSync = true; }` — any present
payload object (truthy in JS, even `\x7b\x7d`) wholesale replaces the buffer. -/
def streamIngestBuffer (st : BufferState) (d : Option Update) : BufferState :=
  match d with
  | some x => { memoryBuffer := some x, needsSync := true }
  | none => st

/-! ## Flush machinery — per-collection `saveLoop` (`part_002` lines 99-132)

The outcome of the network call is an environment parameter: `ok` carries the
new sha returned by the PUT; `conflict` is a 409 whose recovery GET either
yields the latest sha or itself fails; `otherErr` is any other failure. -/

inductive PutOutcome where
  | ok (newSha : String)
  | conflict (refreshed : Option String)
  | otherErr
deriving DecidableEq, Repr

/-- One collection as the flush scheduler sees it: serialized value
(abstract content type `α`), last-known sha, dirty flag. -/
structure FlushCol (α : Type) where
  data : α
  sha : Option String
  dirty : Bool
deriving DecidableEq, Repr

/-- A PUT issued to the store: the content and the sha it was issued with. -/
structure WriteReq (α : Type) where
  content : α
  shaUsed : Option String
deriving DecidableEq, Repr

/-- The `try/catch` body of `saveLoop` for one dirty collection
(`part_002` lines 107-129): PUT the serialized data with the stored sha;
on success store the new sha and clear dirty; on 409 refresh only the
sha (when the recovery GET succeeds); on any other error change nothing.
Returns the updated collection and the write that was issued. -/
def saveColStep {α : Type} (col : FlushCol α) (r : PutOutcome) :
    FlushCol α × List (WriteReq α) :=
  let w : List (WriteReq α) := [⟨col.data, col.sha⟩]
  match r with
  | .ok s => ({ col with sha := some s, dirty := false }, w)
  | .conflict (some s) => ({ col with sha := some s }, w)
  | .conflict none => (col, w)
  | .otherErr => (col, w)

/-- The `for (const key of dirtyKeys)` loop: clean collections are
skipped (no write); each dirty collection consumes the next outcome from
the environment (an exhausted environment reads as `otherErr`). -/
def saveCols {α : Type} : List (FlushCol α) → List PutOutcome →
    List (FlushCol α) × List (WriteReq α)
  | [], _ => ([], [])
  | c :: cs, rs =>
      if c.dirty then
        let step := saveColStep c (rs.headD .otherErr)
        let rest := saveCols cs rs.tail
        (step.1 :: rest.1, step.2 ++ rest.2)
      else
        let rest := saveCols cs rs
        (c :: rest.1, rest.2)

/-- The global state of the scheduler: the collections and the `isSaving`
re-entrancy guard. -/
structure SaveState (α : Type) where
  cols : List (FlushCol α)
  isSaving : Bool
deriving DecidableEq, Repr

/-- One invocation of `saveLoop` (`part_002` lines 99-132):
`if (isSaving) return;` then `if (dirtyKeys.length === 0) return;` then
set `isSaving`, flush each dirty collection, clear `isSaving`.  Returns
the resulting state and every write issued during the invocation. -/
def saveLoopRun {α : Type} (st : SaveState α) (rs : List PutOutcome) :
    SaveState α × List (WriteReq α) :=
  if st.isSaving then (st, [])
  else if st.cols.all (fun c => !c.dirty) then (st, [])
  else
    let done := saveCols st.cols rs
    ({ cols := done.1, isSaving := false }, done.2)

/-! ## Flush machinery — single-blob `saveToRepo` (`server.js` lines 61-93)

`saveToRepo` clears `isDirty` *before* awaiting the PUT ("Asumimos éxito
para no bloquear, revertimos si falla").  To talk about the moment a
write is in flight, the function is split at its suspension point:
`saveToRepoFire` is the synchronous prefix (guard, snapshot, clear
dirty, issue PUT), `saveToRepoComplete` the continuation once the outcome
of the PUT is known.  `pending` lists the issued writes not yet completed;
ingest events may interleave between the two halves. -/

structure RepoState (α : Type) where
  memoryDb : α
  fileSha : Option String
  isDirty : Bool
  pending : List (WriteReq α)
deriving DecidableEq, Repr

/-- The synchronous prefix of `saveToRepo`: `if (!isDirty) return;`
snapshot `contentToSave`, set `isDirty = false`, issue the PUT (which
then suspends at `await`). -/
def saveToRepoFire {α : Type} (st : RepoState α) : RepoState α :=
  if !st.isDirty then st
  else { st with isDirty := false, pending := st.pending ++ [⟨st.memoryDb, st.fileSha⟩] }

/-- Outcome of a `saveToRepo` PUT: success with the new sha, or a
failure; a 409 failure additionally runs `initStorage()`, which either
reloads `memoryDb` and `fileSha` wholesale from the remote or fails and
changes nothing further. -/
inductive RepoOutcome (α : Type) where
  | ok (newSha : String)
  | conflictReload (remote : α) (remoteSha : String)
  | conflictReloadFail
  | otherErr
deriving DecidableEq, Repr

/-- The continuation of `saveToRepo` after the oldest pending PUT
resolves: on success store the new sha; on any failure `isDirty = true`,
and on a 409 `initStorage()` replaces `memoryDb` with the remote content
and `fileSha` with the remote sha. -/
def saveToRepoComplete {α : Type} (st : RepoState α) (r : RepoOutcome α) :
    RepoState α :=
  let st' := { st with pending := st.pending.tail }
  match r with
  | .ok s => { st' with fileSha := some s }
  | .conflictReload remote rSha =>
      { st' with isDirty := true, memoryDb := remote, fileSha := some rSha }
  | .conflictReloadFail => { st' with isDirty := true }
  | .otherErr => { st' with isDirty := true }

/-- An ingest hitting the single-blob variant between timer events:
`/api/stream` merges into `memoryDb` and sets `isDirty = true`. -/
def repoIngest {α : Type} (st : RepoState α) (f : α → α) : RepoState α :=
  { st with memoryDb := f st.memoryDb, isDirty := true }

/-! ## Helper lemmas on the transfer list primitives -/

/-- The ids stored in a transfer list, in order. -/
def idsOf (l : List Transfer) : List String := l.map Transfer.id

theorem findTransfer_cons_pos {t : Transfer} {i : String} (rest : List Transfer)
    (h : t.id = i) : findTransfer (t :: rest) i = some t :=
  List.find?_cons_of_pos _ (by simp [h])

theorem findTransfer_cons_neg {t : Transfer} {i : String} (rest : List Transfer)
    (h : ¬ t.id = i) : findTransfer (t :: rest) i = findTransfer rest i :=
  List.find?_cons_of_neg _ (by simp [h])

theorem findTransfer_append (l l' : List Transfer) (i : String) :
    findTransfer (l ++ l') i = (findTransfer l i).or (findTransfer l' i) :=
  List.find?_append

theorem findTransfer_append_of_isSome {l : List Transfer} (l' : List Transfer)
    {i : String} (h : (findTransfer l i).isSome) :
    findTransfer (l ++ l') i = findTransfer l i := by
  rw [findTransfer_append]
  cases hf : findTransfer l i with
  | none => rw [hf] at h; simp at h
  | some t => rfl

theorem setClaimed_cons_pos {t : Transfer} {i : String} (rest : List Transfer)
    (c : Bool) (h : t.id = i) :
    setClaimed (t :: rest) i c = { t with claimed := c } :: rest := by
  simp [setClaimed, h]

theorem setClaimed_cons_neg {t : Transfer} {i : String} (rest : List Transfer)
    (c : Bool) (h : ¬ t.id = i) :
    setClaimed (t :: rest) i c = t :: setClaimed rest i c := by
  simp [setClaimed, h]

theorem findTransfer_setClaimed_self (l : List Transfer) (i : String) (c : Bool) :
    findTransfer (setClaimed l i c) i =
      (findTransfer l i).map (fun t => { t with claimed := c }) := by
  induction l with
  | nil => rfl
  | cons t rest ih =>
      by_cases h : t.id = i
      · rw [setClaimed_cons_pos rest c h, findTransfer_cons_pos rest h,
          findTransfer_cons_pos rest (show ({ t with claimed := c } : Transfer).id = i from h)]
        rfl
      · rw [setClaimed_cons_neg rest c h,
          findTransfer_cons_neg _ (show ¬ (t.id = i) from h),
          findTransfer_cons_neg rest h, ih]

theorem findTransfer_setClaimed_ne (l : List Transfer) (i : String) (c : Bool)
    (j : String) (h : j ≠ i) :
    findTransfer (setClaimed l i c) j = findTransfer l j := by
  induction l with
  | nil => rfl
  | cons t rest ih =>
      by_cases ht : t.id = i
      · have hj : ¬ t.id = j := fun hj2 => h (hj2 ▸ ht)
        rw [setClaimed_cons_pos rest c ht,
          findTransfer_cons_neg rest (show ¬ ({ t with claimed := c } : Transfer).id = j from hj),
          findTransfer_cons_neg rest hj]
      · rw [setClaimed_cons_neg rest c ht]
        by_cases hj : t.id = j
        · rw [findTransfer_cons_pos _ hj, findTransfer_cons_pos rest hj]
        · rw [findTransfer_cons_neg _ hj, findTransfer_cons_neg rest hj, ih]

theorem idsOf_setClaimed (l : List Transfer) (i : String) (c : Bool) :
    idsOf (setClaimed l i c) = idsOf l := by
  induction l with
  | nil => rfl
  | cons t rest ih =>
      by_cases h : t.id = i
      · rw [setClaimed_cons_pos rest c h]; simp [idsOf]
      · rw [setClaimed_cons_neg rest c h]
        simp only [idsOf, List.map_cons] at ih ⊢
        rw [ih]

theorem findTransfer_isSome_iff (l : List Transfer) (i : String) :
    (findTransfer l i).isSome = true ↔ i ∈ idsOf l := by
  induction l with
  | nil => simp [findTransfer, idsOf]
  | cons t rest ih =>
      by_cases h : t.id = i
      · rw [findTransfer_cons_pos rest h]
        simp [idsOf, h]
      · rw [findTransfer_cons_neg rest h]
        simp only [idsOf, List.map_cons, List.mem_cons]
        rw [ih]
        constructor
        · exact fun hh => Or.inr hh
        · rintro (hh | hh)
          · exact absurd hh.symm h
          · exact hh

theorem countId_cons (t : Transfer) (rest : List Transfer) (i : String) :
    countId (t :: rest) i = (if t.id = i then 1 else 0) + countId rest i := by
  by_cases h : t.id = i <;>
    simp [countId, List.filter_cons, h, Nat.add_comm]

theorem countId_append (l l' : List Transfer) (i : String) :
    countId (l ++ l') i = countId l i + countId l' i := by
  simp [countId, List.filter_append]

theorem countId_setClaimed (l : List Transfer) (i : String) (c : Bool) (j : String) :
    countId (setClaimed l i c) j = countId l j := by
  induction l with
  | nil => rfl
  | cons t rest ih =>
      by_cases h : t.id = i
      · rw [setClaimed_cons_pos rest c h, countId_cons, countId_cons]
      · rw [setClaimed_cons_neg rest c h, countId_cons, countId_cons, ih]

theorem countId_eq_zero_of_findTransfer_eq_none {l : List Transfer} {i : String}
    (h : findTransfer l i = none) : countId l i = 0 := by
  induction l with
  | nil => rfl
  | cons t rest ih =>
      by_cases ht : t.id = i
      · rw [findTransfer_cons_pos rest ht] at h; exact absurd h (by simp)
      · rw [findTransfer_cons_neg rest ht] at h
        rw [countId_cons, if_neg ht, ih h]

theorem claimedOf_isSome {l : List Transfer} {i : String}
    (h : claimedOf l i = some true) : (findTransfer l i).isSome := by
  unfold claimedOf at h
  cases hf : findTransfer l i with
  | none => rw [hf] at h; simp at h
  | some t => simp

/-! ## Step and fold lemmas for the two transfer merges -/

theorem mergeTransferServerJs_ids {l : List Transfer} (tx : Transfer) {i : String}
    (h : i ∈ idsOf l) : i ∈ idsOf (mergeTransferServerJs l tx) := by
  unfold mergeTransferServerJs
  split
  · simp only [idsOf, List.map_append, List.mem_append]
    exact Or.inl h
  · rw [idsOf_setClaimed]; exact h

theorem mergeTransferCol_ids {st : List Transfer × Bool} (tx : Transfer) {i : String}
    (h : i ∈ idsOf st.1) : i ∈ idsOf (mergeTransferCol st tx).1 := by
  cases hf : findTransfer st.1 tx.id with
  | none =>
      simp only [mergeTransferCol, hf, idsOf, List.map_append, List.mem_append]
      exact Or.inl h
  | some ex =>
      simp only [mergeTransferCol, hf]
      split
      · rw [idsOf_setClaimed]; exact h
      · exact h

theorem mergeTransfersServerJs_ids (txs : List Transfer) :
    ∀ (l : List Transfer) (i : String), i ∈ idsOf l →
      i ∈ idsOf (mergeTransfersServerJs l txs) := by
  induction txs with
  | nil => exact fun l i h => h
  | cons tx rest ih =>
      intro l i h
      exact ih (mergeTransferServerJs l tx) i (mergeTransferServerJs_ids tx h)

theorem mergeTransfersCol_fold_ids (txs : List Transfer) :
    ∀ (st : List Transfer × Bool) (i : String), i ∈ idsOf st.1 →
      i ∈ idsOf (txs.foldl mergeTransferCol st).1 := by
  induction txs with
  | nil => exact fun st i h => h
  | cons tx rest ih =>
      intro st i h
      exact ih (mergeTransferCol st tx) i (mergeTransferCol_ids tx h)

theorem mergeTransferServerJs_countId {l : List Transfer} (tx : Transfer)
    {j : String} (h : countId l j ≤ 1) :
    countId (mergeTransferServerJs l tx) j ≤ 1 := by
  unfold mergeTransferServerJs
  split
  case isTrue hf =>
    rw [countId_append, countId_cons]
    by_cases hj : tx.id = j
    · have h0 : countId l j = 0 := by
        have hn : findTransfer l j = none := by
          rw [← hj]; exact Option.isNone_iff_eq_none.mp hf
        exact countId_eq_zero_of_findTransfer_eq_none hn
      rw [h0]
      simp [hj, countId]
    · simpa [hj, countId] using h
  case isFalse => rw [countId_setClaimed]; exact h

theorem mergeTransferCol_countId {st : List Transfer × Bool} (tx : Transfer)
    {j : String} (h : countId st.1 j ≤ 1) :
    countId (mergeTransferCol st tx).1 j ≤ 1 := by
  cases hf : findTransfer st.1 tx.id with
  | none =>
      simp only [mergeTransferCol, hf]
      rw [countId_append, countId_cons]
      by_cases hj : tx.id = j
      · have h0 : countId st.1 j = 0 := by
          have hn : findTransfer st.1 j = none := by rw [← hj]; exact hf
          exact countId_eq_zero_of_findTransfer_eq_none hn
        rw [h0]
        simp [hj, countId]
      · simpa [hj, countId] using h
  | some ex =>
      simp only [mergeTransferCol, hf]
      split
      · rw [countId_setClaimed]; exact h
      · exact h

theorem mergeTransfersServerJs_countId (txs : List Transfer) :
    ∀ (l : List Transfer) (j : String), countId l j ≤ 1 →
      countId (mergeTransfersServerJs l txs) j ≤ 1 := by
  induction txs with
  | nil => exact fun l j h => h
  | cons tx rest ih =>
      intro l j h
      exact ih (mergeTransferServerJs l tx) j (mergeTransferServerJs_countId tx h)

theorem mergeTransfersCol_fold_countId (txs : List Transfer) :
    ∀ (st : List Transfer × Bool) (j : String), countId st.1 j ≤ 1 →
      countId (txs.foldl mergeTransferCol st).1 j ≤ 1 := by
  induction txs with
  | nil => exact fun st j h => h
  | cons tx rest ih =>
      intro st j h
      exact ih (mergeTransferCol st tx) j (mergeTransferCol_countId tx h)

theorem mergeTransferCol_claimed {st : List Transfer × Bool} (tx : Transfer)
    {i : String} (h : claimedOf st.1 i = some true) :
    claimedOf (mergeTransferCol st tx).1 i = some true := by
  by_cases hi : tx.id = i
  · subst hi
    cases hf : findTransfer st.1 tx.id with
    | none =>
        have := claimedOf_isSome h
        rw [hf] at this; simp at this
    | some ex =>
        have hex : ex.claimed = true := by
          unfold claimedOf at h; rw [hf] at h; simpa using h
        simp only [mergeTransferCol, hf, hex, Bool.not_true, Bool.false_and,
          Bool.false_eq_true, if_false]
        exact h
  · cases hf : findTransfer st.1 tx.id with
    | none =>
        simp only [mergeTransferCol, hf]
        unfold claimedOf
        rw [findTransfer_append_of_isSome _ (claimedOf_isSome h)]
        exact h
    | some ex =>
        simp only [mergeTransferCol, hf]
        split
        · unfold claimedOf
          rw [findTransfer_setClaimed_ne _ _ _ _ (fun hh => hi hh.symm)]
          exact h
        · exact h

theorem mergeTransfersCol_fold_claimed (txs : List Transfer) :
    ∀ (st : List Transfer × Bool) (i : String), claimedOf st.1 i = some true →
      claimedOf (txs.foldl mergeTransferCol st).1 i = some true := by
  induction txs with
  | nil => exact fun st i h => h
  | cons tx rest ih =>
      intro st i h
      exact ih (mergeTransferCol st tx) i (mergeTransferCol_claimed tx h)

/-! ## Dirty-flag lemmas for the `part_002` users/tokens branches -/

theorem applyTokenCol_snd (st : List (String × TokenRec) × Bool)
    (kv : String × TokenRec) : (applyTokenCol st kv).2 = true := by
  cases hf : lookupTok st.1 kv.1 <;> simp [applyTokenCol, hf]

theorem applyTokensCol_fold_snd (inc : List (String × TokenRec)) :
    ∀ st : List (String × TokenRec) × Bool, st.2 = true →
      (inc.foldl applyTokenCol st).2 = true := by
  induction inc with
  | nil => exact fun st h => h
  | cons kv rest ih =>
      intro st h
      exact ih _ (applyTokenCol_snd st kv)

theorem applyTokensCol_dirty_iff (store : List (String × TokenRec))
    (inc : List (String × TokenRec)) :
    (applyTokensCol store false inc).2 = true ↔ inc ≠ [] := by
  cases inc with
  | nil => simp [applyTokensCol]
  | cons kv rest =>
      constructor
      · intro _h
        exact List.cons_ne_nil kv rest
      · intro _h
        show (rest.foldl applyTokenCol (applyTokenCol (store, false) kv)).2 = true
        exact applyTokensCol_fold_snd rest _ (applyTokenCol_snd _ kv)

theorem applyTokensCol_unchanged_of_not_dirty (store : List (String × TokenRec))
    (inc : List (String × TokenRec))
    (h : (applyTokensCol store false inc).2 = false) :
    (applyTokensCol store false inc).1 = store := by
  cases inc with
  | nil => rfl
  | cons kv rest =>
      exfalso
      have ht : (applyTokensCol store false (kv :: rest)).2 = true :=
        applyTokensCol_fold_snd rest (applyTokenCol (store, false) kv)
          (applyTokenCol_snd _ kv)
      rw [ht] at h
      exact Bool.noConfusion h

theorem applyUserCol_eq_of_snd_false {st : List (String × UserRec) × Bool}
    {kv : String × UserRec} (h : (applyUserCol st kv).2 = false) :
    applyUserCol st kv = st := by
  cases hf : lookupUser st.1 kv.1 with
  | none => simp [applyUserCol, hf] at h
  | some ext =>
      by_cases hne : ext ≠ kv.2
      · simp [applyUserCol, hf, hne] at h
      · simp [applyUserCol, hf, hne]

theorem applyUsersCol_fold_unchanged (inc : List (String × UserRec)) :
    ∀ st : List (String × UserRec) × Bool, (inc.foldl applyUserCol st).2 = false →
      inc.foldl applyUserCol st = st := by
  induction inc with
  | nil => exact fun st _ => rfl
  | cons kv rest ih =>
      intro st h
      have h2 : (rest.foldl applyUserCol (applyUserCol st kv)).2 = false := h
      have hr := ih (applyUserCol st kv) h2
      rw [hr] at h2
      have hst := applyUserCol_eq_of_snd_false h2
      show rest.foldl applyUserCol (applyUserCol st kv) = st
      rw [hr, hst]

/-! ## Claims -/

/-- C2 (amended): in the per-collection transfer merge (`part_002` lines
192-198, second half of `server.js`), `claimed` is monotonic — once a
stored transfer has `claimed = true`, merging any inbound transfer list,
including one carrying `claimed:false` for the same id, leaves it true.
In the single-blob `server.js` merge (lines 114-122) cited by the claim,
an explicit inbound `claimed:false` does reset it (see the
counterexample), so the claim holds only for the per-collection
variant. -/
theorem C2_claimed_monotonic (l : List Transfer) (d : Bool) (txs : List Transfer)
    (i : String) (h : claimedOf l i = some true) :
    claimedOf (mergeTransfersCol l d txs).1 i = some true :=
  mergeTransfersCol_fold_claimed txs (l, d) i h

/-- C2 witness: a stored claimed transfer stays claimed even when the
inbound update carries `claimed:false` for the same id. -/
theorem C2_claimed_monotonic_witness :
    claimedOf (mergeTransfersCol [⟨"t1", true⟩] false [⟨"t1", false⟩]).1 "t1" =
      some true :=
  C2_claimed_monotonic [⟨"t1", true⟩] false [⟨"t1", false⟩] "t1" (by decide)

/-- C2 counterexample: under the `server.js` lines 114-122 merge
(`ex.claimed = tx.claimed`), an inbound `{id:"t1", claimed:false}` resets
a stored claimed transfer back to false. -/
theorem C2_counterexample :
    claimedOf [⟨"t1", true⟩] "t1" = some true ∧
    claimedOf (mergeTransfersServerJs [⟨"t1", true⟩] [⟨"t1", false⟩]) "t1" =
      some false := by
  decide

/-- C3: in both cited transfer merges (`server.js` lines 114-122 and
`part_002` lines 192-198) the transfers collection is append-only — any
id present before a merge is still present after — and duplicate-free by
id — a key with at most one stored element keeps at most one element,
because an inbound transfer whose id exists never pushes; and the
scenario submitting `{id:"t1", claimed:false}` then `{id:"t1",
claimed:true}` ends with exactly `[{id:"t1", claimed:true}]` in both
variants. -/
theorem C3_transfers_append_only (l : List Transfer) (d : Bool)
    (txs : List Transfer) (i : String) :
    ((findTransfer l i).isSome = true →
      (findTransfer (mergeTransfersServerJs l txs) i).isSome = true) ∧
    ((findTransfer l i).isSome = true →
      (findTransfer (mergeTransfersCol l d txs).1 i).isSome = true) ∧
    (countId l i ≤ 1 → countId (mergeTransfersServerJs l txs) i ≤ 1) ∧
    (countId l i ≤ 1 → countId (mergeTransfersCol l d txs).1 i ≤ 1) ∧
    mergeTransfersServerJs (mergeTransfersServerJs [] [⟨"t1", false⟩])
      [⟨"t1", true⟩] = [⟨"t1", true⟩] ∧
    (mergeTransfersCol (mergeTransfersCol [] false [⟨"t1", false⟩]).1 false
      [⟨"t1", true⟩]).1 = [⟨"t1", true⟩] := by
  refine ⟨?_, ?_, ?_, ?_, by decide, by decide⟩
  · intro h
    rw [findTransfer_isSome_iff] at h ⊢
    exact mergeTransfersServerJs_ids txs l i h
  · intro h
    rw [findTransfer_isSome_iff] at h ⊢
    exact mergeTransfersCol_fold_ids txs (l, d) i h
  · exact mergeTransfersServerJs_countId txs l i
  · exact mergeTransfersCol_fold_countId txs (l, d) i

/-- C3 witness: a transfer already stored is still found after a merge of
an unrelated inbound transfer. -/
theorem C3_transfers_append_only_witness :
    (findTransfer (mergeTransfersServerJs [⟨"t1", true⟩] [⟨"t2", false⟩])
      "t1").isSome = true :=
  (C3_transfers_append_only [⟨"t1", true⟩] false [⟨"t2", false⟩] "t1").1
    (by decide)

/-- C4 (amended): in the `part_002`/`server.js` per-collection token
merge all four heavyweight substructures (`holders`, `chartData`,
`topTrades`, `rektTrades`) are overwritten exactly when the inbound
record supplies them and preserved when absent; in the `part_003` merge,
also cited by the claim, only `chartData` is guarded — `holders` and
`tradeLog` are copied from the inbound record unconditionally, so their
stored values are lost when the inbound record omits them (see the
counterexample). -/
theorem C4_heavy_substructures (ext inc : TokenRec) :
    (inc.holders = none → (mergeTokenRecCol ext inc).holders = ext.holders) ∧
    (inc.chartData = none → (mergeTokenRecCol ext inc).chartData = ext.chartData) ∧
    (inc.topTrades = none → (mergeTokenRecCol ext inc).topTrades = ext.topTrades) ∧
    (inc.rektTrades = none → (mergeTokenRecCol ext inc).rektTrades = ext.rektTrades) ∧
    (inc.holders.isSome = true → (mergeTokenRecCol ext inc).holders = inc.holders) ∧
    (inc.chartData.isSome = true → (mergeTokenRecCol ext inc).chartData = inc.chartData) ∧
    (inc.topTrades.isSome = true → (mergeTokenRecCol ext inc).topTrades = inc.topTrades) ∧
    (inc.rektTrades.isSome = true → (mergeTokenRecCol ext inc).rektTrades = inc.rektTrades) ∧
    (inc.chartData = none → (mergeTokenRecGist ext inc).chartData = ext.chartData) ∧
    (mergeTokenRecGist ext inc).holders = inc.holders ∧
    (mergeTokenRecGist ext inc).tradeLog = inc.tradeLog := by
  refine ⟨?_, ?_, ?_, ?_, ?_, ?_, ?_, ?_, ?_, rfl, rfl⟩ <;>
    intro h <;> simp [mergeTokenRecCol, mergeTokenRecGist, h]

/-- C4 witness: a token update omitting `holders` leaves the stored
`holders` untouched in the per-collection merge. -/
theorem C4_heavy_substructures_witness :
    (mergeTokenRecCol
      ⟨some 1, some 1, some 1, some 1, some 1, some [7], some [8], some [9],
        some [10], none⟩
      ⟨some 2, none, none, none, none, none, none, none, none, none⟩).holders =
      some [7] :=
  (C4_heavy_substructures
    ⟨some 1, some 1, some 1, some 1, some 1, some [7], some [8], some [9],
      some [10], none⟩
    ⟨some 2, none, none, none, none, none, none, none, none, none⟩).1 rfl

/-- C4 counterexample: the `part_003` merge (lines 146-155), cited by the
claim, clears the stored `holders` when the inbound record omits it —
absence does clear the substructure there. -/
theorem C4_counterexample :
    (⟨some 1, none, some 1, none, none, some [7], some [8], none, none,
      some [9]⟩ : TokenRec).holders = some [7] ∧
    (mergeTokenRecGist
      ⟨some 1, none, some 1, none, none, some [7], some [8], none, none, some [9]⟩
      ⟨some 2, none, some 2, none, none, none, none, none, none, none⟩).holders =
      none :=
  ⟨rfl, rfl⟩

/-- C7 (amended): in the `part_002` ingest the tokens dirty flag is set
iff the inbound tokens payload is non-empty — even when the merged value
is structurally unchanged (see the counterexample), so "dirty iff the
merge changed the value" fails; the direction that does hold, for both
the users and the tokens branches, is that whenever the merge leaves the
dirty flag unset the stored value is unchanged. -/
theorem C7_dirty_flag (ustore : List (String × UserRec))
    (uinc : List (String × UserRec)) (tstore : List (String × TokenRec))
    (tinc : List (String × TokenRec)) :
    ((applyTokensCol tstore false tinc).2 = true ↔ tinc ≠ []) ∧
    ((applyTokensCol tstore false tinc).2 = false →
      (applyTokensCol tstore false tinc).1 = tstore) ∧
    ((applyUsersCol ustore false uinc).2 = false →
      (applyUsersCol ustore false uinc).1 = ustore) := by
  refine ⟨applyTokensCol_dirty_iff tstore tinc,
    applyTokensCol_unchanged_of_not_dirty tstore tinc, ?_⟩
  intro h
  have h2 := applyUsersCol_fold_unchanged uinc (ustore, false) h
  show (uinc.foldl applyUserCol (ustore, false)).1 = ustore
  rw [h2]

/-- C7 witness: an empty tokens payload leaves the dirty flag unset and
the store unchanged. -/
theorem C7_dirty_flag_witness :
    (applyTokensCol [] false []).1 = ([] : List (String × TokenRec)) :=
  (C7_dirty_flag [] [] [] []).2.1 rfl

/-- C7 counterexample: merging a token update structurally identical to
the stored record leaves the value unchanged yet sets the dirty flag —
the stated iff fails on the `part_002` tokens branch. -/
theorem C7_counterexample :
    applyTokensCol
      [("t", ⟨some 1, some 2, some 3, some 4, some 5, some [1], some [2],
        some [3], some [4], none⟩)] false
      [("t", ⟨some 1, some 2, some 3, some 4, some 5, some [1], some [2],
        some [3], some [4], none⟩)] =
    ([("t", ⟨some 1, some 2, some 3, some 4, some 5, some [1], some [2],
        some [3], some [4], none⟩)], true) := by
  rfl

/-- C8 (amended): the stored bots sequence is wholly replaced exactly
when the payload carries a bots array — present-and-empty replaces too,
because an empty array is truthy in JS; only absence of the key leaves
the stored sequence unchanged. -/
theorem C8_bots_replacement (stored : List Int) (d : Bool) (bs : List Int) :
    applyBots stored d none = (stored, d) ∧
    applyBots stored d (some bs) = (bs, true) :=
  ⟨rfl, rfl⟩

/-- C8 counterexample: an incoming empty bots array replaces a non-empty
stored sequence, contradicting the claim that an empty incoming bots
collection leaves the stored sequence unchanged. -/
theorem C8_counterexample :
    applyBots [1] false (some []) = ([], true) ∧ (([] : List Int) ≠ [1]) :=
  ⟨rfl, by decide⟩

/-- C9 (amended): the `part_002` ingest completes on every payload and is
a no-op when the payload is absent or carries none of the recognized
keys; the `part_000` ingest, also cited by the claim, performs no merge —
any present payload, even an empty one, wholesale replaces the buffer and
raises the sync flag (see the counterexample), so only an absent `data`
leaves its state unchanged. -/
theorem C9_empty_update (c : Collections) (st : BufferState) (x : Update) :
    streamIngestCol c none = c ∧
    streamIngestCol c (some (Update.mk none none none none)) = c ∧
    streamIngestBuffer st none = st ∧
    streamIngestBuffer st (some x) =
      { memoryBuffer := some x, needsSync := true } :=
  ⟨rfl, rfl, rfl, rfl⟩

/-- C9 counterexample: in `part_000` lines 31-38 a present-but-empty
payload object is truthy, so it replaces the buffered value and sets the
sync flag — an empty update is not a no-op there. -/
theorem C9_counterexample :
    (streamIngestBuffer
      { memoryBuffer := some { users := some [("alice", ⟨[("usd", 100)]⟩)] },
        needsSync := false }
      (some ({} : Update))).memoryBuffer ≠
        some { users := some [("alice", ⟨[("usd", 100)]⟩)] } ∧
    (streamIngestBuffer
      { memoryBuffer := some { users := some [("alice", ⟨[("usd", 100)]⟩)] },
        needsSync := false }
      (some ({} : Update))).needsSync = true := by
  refine ⟨?_, rfl⟩
  decide

/-- C10 (amended): in the `part_002`/`server.js` token merge onto an
existing record (`part_002` lines 177-188, `server.js` lines 296-313)
the five scalar fields `marketCap`, `price`, `liquidityDepth`,
`conviction`, `quality` are assigned from the inbound record
unconditionally, so an inbound record omitting a scalar (`none`, JS
`undefined`) overwrites the stored value with `undefined` — shown
concretely by the `marketCap` conjunct; in the `part_003` merge (lines
146-151), also cited by the claim, only `marketCap` and
`liquidityDepth` among these are assigned unconditionally — `price`,
`conviction` and `quality` are never touched, so an inbound record
omitting them preserves the stored values there (see the
counterexample). -/
theorem C10_scalar_overwrite (ext inc : TokenRec) :
    (mergeTokenRecCol ext inc).marketCap = inc.marketCap ∧
    (mergeTokenRecCol ext inc).price = inc.price ∧
    (mergeTokenRecCol ext inc).liquidityDepth = inc.liquidityDepth ∧
    (mergeTokenRecCol ext inc).conviction = inc.conviction ∧
    (mergeTokenRecCol ext inc).quality = inc.quality ∧
    (mergeTokenRecCol
      ⟨some 5, some 5, some 5, some 5, some 5, none, none, none, none, none⟩
      ⟨none, none, none, none, none, none, none, none, none, none⟩).marketCap =
      none ∧
    (mergeTokenRecGist ext inc).marketCap = inc.marketCap ∧
    (mergeTokenRecGist ext inc).liquidityDepth = inc.liquidityDepth ∧
    (mergeTokenRecGist ext inc).price = ext.price ∧
    (mergeTokenRecGist ext inc).conviction = ext.conviction ∧
    (mergeTokenRecGist ext inc).quality = ext.quality :=
  ⟨rfl, rfl, rfl, rfl, rfl, rfl, rfl, rfl, rfl, rfl, rfl⟩

/-- C10 counterexample: in the `part_003` merge, cited by the claim, an
inbound token record omitting `price` does not overwrite the stored
price with `undefined` — `price` is never assigned there, so the stored
value survives, contradicting the claim for that cited source. -/
theorem C10_counterexample :
    (mergeTokenRecGist
      ⟨some 1, some 3, some 1, some 4, some 5, some [7], some [8], none, none,
        some [9]⟩
      ⟨some 2, none, some 2, none, none, none, none, none, none, none⟩).price =
      some 3 ∧
    (some (3 : Int) ≠ none) :=
  ⟨rfl, by decide⟩

/-- C1 (amended): for the per-collection `saveLoop` the claim holds as
stated — the dirty flag is cleared iff the PUT succeeded, and the write
carries the current value of the collection with its stored token; the
single-blob `saveToRepo` and `persistData` clear the flag speculatively
before the write completes (see the counterexample) but restore it on
failure, so once the in-flight write resolves, with no interleaved
ingest, dirty is false iff the write succeeded. -/
theorem C1_dirty_iff_write_success (c : FlushCol Int) (r : PutOutcome)
    (st : RepoState Int) (r2 : RepoOutcome Int)
    (hc : c.dirty = true) (hst : st.isDirty = true) :
    (((saveColStep c r).1.dirty = false) ↔ ∃ s, r = PutOutcome.ok s) ∧
    ((saveColStep c r).2 = [⟨c.data, c.sha⟩]) ∧
    (((saveToRepoComplete (saveToRepoFire st) r2).isDirty = false) ↔
      ∃ s, r2 = RepoOutcome.ok s) := by
  refine ⟨⟨?_, ?_⟩, ?_, ⟨?_, ?_⟩⟩
  · intro h
    cases r with
    | ok s => exact ⟨s, rfl⟩
    | conflict ref =>
        exfalso
        cases ref <;> simp [saveColStep, hc] at h
    | otherErr =>
        exfalso
        simp [saveColStep, hc] at h
  · rintro ⟨s, rfl⟩
    simp [saveColStep]
  · cases r with
    | ok s => rfl
    | conflict ref => cases ref <;> rfl
    | otherErr => rfl
  · intro h
    cases r2 with
    | ok s => exact ⟨s, rfl⟩
    | conflictReload a b =>
        exfalso
        simp [saveToRepoFire, saveToRepoComplete, hst] at h
    | conflictReloadFail =>
        exfalso
        simp [saveToRepoFire, saveToRepoComplete, hst] at h
    | otherErr =>
        exfalso
        simp [saveToRepoFire, saveToRepoComplete, hst] at h
  · rintro ⟨s, rfl⟩
    simp [saveToRepoFire, saveToRepoComplete, hst]

/-- C1 witness: a flush attempt of a dirty collection issues a write
carrying its current value and stored token. -/
theorem C1_dirty_iff_write_success_witness :
    (saveColStep (FlushCol.mk (0 : Int) none true) (PutOutcome.ok "s")).2 =
      [WriteReq.mk (0 : Int) none] :=
  (C1_dirty_iff_write_success (FlushCol.mk 0 none true) (PutOutcome.ok "s")
    (RepoState.mk 0 none true []) (RepoOutcome.ok "s2") rfl rfl).2.1

/-- C1 counterexample: `server.js` line 67 sets `isDirty = false` before
the PUT issued at line 72 resolves — right after the synchronous prefix
the write is still pending yet the dirty flag is already false,
contradicting the claim that the flag is never set to false before the
write completes. -/
theorem C1_counterexample :
    (saveToRepoFire (RepoState.mk (0 : Int) none true [])).isDirty = false ∧
    (saveToRepoFire (RepoState.mk (0 : Int) none true [])).pending =
      [WriteReq.mk (0 : Int) none] :=
  ⟨rfl, rfl⟩

/-- C5 (amended): in the `saveLoop` variant an invocation that finds
`isSaving` set performs no store write and makes no state change; the
single-blob `saveToRepo` of `server.js` has no saving flag, and a timer
firing during an in-flight save after an interleaved ingest issues a
second concurrent write (see the counterexample). -/
theorem C5_no_overlap (st : SaveState Int) (rs : List PutOutcome)
    (h : st.isSaving = true) : saveLoopRun st rs = (st, []) := by
  simp [saveLoopRun, h]

/-- C5 witness: a re-entrant `saveLoop` invocation on a dirty collection
while saving is in flight changes nothing and writes nothing. -/
theorem C5_no_overlap_witness :
    saveLoopRun (SaveState.mk [FlushCol.mk (0 : Int) none true] true) [] =
      (SaveState.mk [FlushCol.mk (0 : Int) none true] true, []) :=
  C5_no_overlap (SaveState.mk [FlushCol.mk 0 none true] true) [] rfl

/-- C5 counterexample: trace on the single-blob `server.js` variant — the
timer fires (one write in flight, dirty cleared speculatively), an ingest
arrives (dirty set again), the timer fires again: two writes are now in
flight concurrently. -/
theorem C5_counterexample :
    (saveToRepoFire (repoIngest
      (saveToRepoFire (RepoState.mk (0 : Int) none true []))
      (fun x => x + 1))).pending.length = 2 := by
  rfl

/-- C6 (amended): in `saveLoop` a version conflict refreshes only the
version token, leaves the dirty flag set and the in-memory value
untouched, and the following cycle PUTs the same value with the
refreshed token and clears dirty on success; in the `saveToRepo` conflict
handler of `server.js`, also cited by the claim, the 409 path instead
reloads the whole database from the remote store, replacing the
in-memory value (see the counterexample). -/
theorem C6_conflict_recovery (c : FlushCol Int) (s1 s2 : String)
    (h : c.dirty = true) :
    (saveColStep c (PutOutcome.conflict (some s1))).1 =
      { c with sha := some s1 } ∧
    (saveColStep c (PutOutcome.conflict (some s1))).1.dirty = true ∧
    (saveColStep c (PutOutcome.conflict (some s1))).1.data = c.data ∧
    (saveColStep (saveColStep c (PutOutcome.conflict (some s1))).1
        (PutOutcome.ok s2)).2 = [⟨c.data, some s1⟩] ∧
    (saveColStep (saveColStep c (PutOutcome.conflict (some s1))).1
        (PutOutcome.ok s2)).1 = { c with sha := some s2, dirty := false } := by
  refine ⟨rfl, ?_, rfl, rfl, rfl⟩
  simp [saveColStep, h]

/-- C6 witness: a collection that conflicts once and then succeeds is
written on the following cycle with the refreshed token and ends clean. -/
theorem C6_conflict_recovery_witness :
    (saveColStep (saveColStep (FlushCol.mk (7 : Int) (some "a") true)
        (PutOutcome.conflict (some "b"))).1 (PutOutcome.ok "c")).1 =
      FlushCol.mk (7 : Int) (some "c") false :=
  (C6_conflict_recovery (FlushCol.mk 7 (some "a") true) "b" "c" rfl).2.2.2.2

/-- C6 counterexample: in `server.js` the 409 handler awaits
`initStorage()`, which replaces `memoryDb` with the remote content — the
in-memory value changes from 5 to 9, contradicting the claim that the
value is left unchanged on conflict. -/
theorem C6_counterexample :
    (saveToRepoComplete
      (saveToRepoFire (RepoState.mk (5 : Int) (some "s0") true []))
      (RepoOutcome.conflictReload 9 "s1")).memoryDb = 9 ∧ ((9 : Int) ≠ 5) :=
  ⟨rfl, by decide⟩

end Memecoin
